import Mathlib

/-!
Verification of the tactical-edge communications gateway.

This file is a shallow embedding, in Lean 4, of the parts of the gateway
relevant to the frozen claims: the priority store-and-forward queue
(`src/services/store-forward/src/queue_manager.py` and its drain worker in
`src/services/store-forward/src/main.py`), the gateway message pipeline
(`src/services/gateway-core/src/message_handler.py`, `main.py`, `auth.py`),
the crypto engine (`src/services/crypto-service/src/crypto_engine.py`) and
the audit logger (`src/services/audit-service/src/audit_logger.py`).

Conventions of the embedding:
* Python strings are Lean `String`s (or `List Char` where the proofs need
  character-level induction); bytes are `Nat`s with an explicit `< 256`
  side condition where the value range matters; timestamps are naturals
  (epoch milliseconds or seconds, as noted at each definition).
* External libraries used by the source (the `cryptography` AEAD primitive,
  `hashlib.sha256`, `json.dumps`) are collaborators: they are modelled as
  parameters together with their documented contracts.  The Python standard
  `base64` codec is implemented directly since its round-trip is short to
  prove.  Everything written by the repository itself is translated from
  the source, not from the specification.
* `async` handlers are pure state-passing functions: the outcome of each
  outbound HTTP call is a parameter of the embedded function, one
  constructor per outcome the source distinguishes.
-/

/-! ## Message precedence (`message_handler.py`, `MessagePrecedence`) -/

/-- Military-standard message precedence levels
(`MessagePrecedence` in `message_handler.py`). -/
inductive MessagePrecedence where
  | FLASH
  | IMMEDIATE
  | PRIORITY
  | ROUTINE
deriving DecidableEq, Repr

/-- The wire value of a precedence (`MessagePrecedence.value`). -/
def MessagePrecedence.value : MessagePrecedence → String
  | .FLASH => "FLASH"
  | .IMMEDIATE => "IMMEDIATE"
  | .PRIORITY => "PRIORITY"
  | .ROUTINE => "ROUTINE"

/-- `MessagePrecedence.max_latency_ms`: the `latency_map` lookup
(`latency_map.get(self.value, 10000)`; every enum value is in the map,
so the `10000` default is unreachable). -/
def MessagePrecedence.max_latency_ms : MessagePrecedence → Nat
  | .FLASH => 100
  | .IMMEDIATE => 500
  | .PRIORITY => 2000
  | .ROUTINE => 10000

/-- `MessagePrecedence.priority_value`: the `priority_map` lookup
(lower = higher priority). -/
def MessagePrecedence.priority_value : MessagePrecedence → Nat
  | .FLASH => 1
  | .IMMEDIATE => 2
  | .PRIORITY => 3
  | .ROUTINE => 4

/-! ## Store-and-forward queue (`queue_manager.py`, in-memory fallback)

The backing store has two implementations behind one interface; the
in-memory fallback (`_fallback_queues`, a per-precedence Python list used
with `append` / `pop(0)`) is the one embedded here.  The Redis path has the
same FIFO semantics (`zadd` with the enqueue timestamp as score and
`zpopmin`), so every claim settled below reads the same on either.
Precedence strings reaching the queue are validated upstream by the
pydantic `pattern` regex, so queues are keyed by `MessagePrecedence`. -/

/-- `QueuedMessage` dataclass from `queue_manager.py`.
`created_at` / `expires_at` are epoch seconds. -/
structure QueuedMessage where
  message_id : String
  recipient : String
  encrypted_content : String
  precedence : MessagePrecedence
  created_at : Nat
  expires_at : Nat
  retry_count : Nat := 0
deriving DecidableEq, Repr

/-- The state of `QueueManager`'s in-memory fallback: one FIFO list per
precedence class, plus the (never-incremented) `expired_count_24h`
counter. -/
structure QueueState where
  flash : List QueuedMessage := []
  immediate : List QueuedMessage := []
  priority : List QueuedMessage := []
  routine : List QueuedMessage := []
  expired_count_24h : Nat := 0
deriving DecidableEq, Repr

/-- Read the FIFO list of one precedence class
(`self._fallback_queues[precedence]`). -/
def QueueState.get (st : QueueState) : MessagePrecedence → List QueuedMessage
  | .FLASH => st.flash
  | .IMMEDIATE => st.immediate
  | .PRIORITY => st.priority
  | .ROUTINE => st.routine

/-- Replace the FIFO list of one precedence class. -/
def QueueState.set (st : QueueState) : MessagePrecedence → List QueuedMessage → QueueState
  | .FLASH, q => { st with flash := q }
  | .IMMEDIATE, q => { st with immediate := q }
  | .PRIORITY, q => { st with priority := q }
  | .ROUTINE, q => { st with routine := q }

/-- Result of `QueueManager.enqueue`: the dict
`{"queue_position": ..., "expires_at": ...}`. -/
structure EnqueueResult where
  queue_position : Nat
  expires_at : Nat
deriving DecidableEq, Repr

/-- `QueueManager.enqueue` (fallback path): build the `QueuedMessage` with
`created_at = now`, `expires_at = now + ttl`, append it to the tail of the
precedence class and report the 1-based position (`len(queue)` after the
append).  The source performs no duplicate-id check of any kind. -/
def QueueManager.enqueue (st : QueueState) (message_id recipient encrypted_content : String)
    (precedence : MessagePrecedence) (ttl : Nat) (now : Nat) : QueueState × EnqueueResult :=
  let message : QueuedMessage :=
    { message_id := message_id
      recipient := recipient
      encrypted_content := encrypted_content
      precedence := precedence
      created_at := now
      expires_at := now + ttl }
  let q := st.get precedence ++ [message]
  (st.set precedence q, { queue_position := q.length, expires_at := now + ttl })

/-- `QueueManager.dequeue` (fallback path): `queue.pop(0)` if non-empty,
else `None`.  Note the source inspects neither `expires_at` nor any clock
here. -/
def QueueManager.dequeue (st : QueueState) (precedence : MessagePrecedence) :
    Option QueuedMessage × QueueState :=
  match st.get precedence with
  | [] => (none, st)
  | m :: rest => (some m, st.set precedence rest)

/-- The fixed class order used by both `flush_all` and the drain worker:
`["FLASH", "IMMEDIATE", "PRIORITY", "ROUTINE"]`. -/
def precedenceOrder : List MessagePrecedence :=
  [.FLASH, .IMMEDIATE, .PRIORITY, .ROUTINE]

/-- The inner `while True: dequeue` loop of `QueueManager.flush_all` on one
class: the sequence of messages it dequeues (all of them, in FIFO order,
until `dequeue` returns `None`). -/
def flushClass : List QueuedMessage → List QueuedMessage
  | [] => []
  | m :: rest => m :: flushClass rest

/-- `QueueManager.flush_all`: drains each class in `precedenceOrder`,
counting every dequeued message as `flushed` (the demo delivery never
fails, so `failed` stays 0).  Returns the delivery trace (each delivered
message tagged with its class, in delivery order), the counters and the
final state. -/
def QueueManager.flush_all (st : QueueState) :
    List (MessagePrecedence × QueuedMessage) × Nat × Nat × QueueState :=
  let trace := precedenceOrder.flatMap (fun p => (flushClass (st.get p)).map (fun m => (p, m)))
  (trace, trace.length, 0,
    ((((st.set .FLASH []).set .IMMEDIATE []).set .PRIORITY []).set .ROUTINE []))

/-- One cycle of `process_queue_worker` (`store-forward/src/main.py`): for
each class in `precedenceOrder`, call `dequeue` once and deliver the single
message obtained, if any.  Returns the cycle's delivery trace and the new
state.  (The source dequeues at most one entry per class per 2-second
cycle; there is no inner loop and no TTL inspection.) -/
def processQueueWorkerCycle (st : QueueState) :
    List (MessagePrecedence × QueuedMessage) × QueueState :=
  precedenceOrder.foldl
    (fun (acc : List (MessagePrecedence × QueuedMessage) × QueueState) p =>
      match QueueManager.dequeue acc.2 p with
      | (some m, st') => (acc.1 ++ [(p, m)], st')
      | (none, st') => (acc.1, st'))
    ([], st)

/-! ## Authentication and authorization (`gateway-core/src/auth.py`)

`verify_jwt` first checks the `Authorization` header and the HS256
signature through the `jose` library; those transport/crypto steps are
outside the claims below, which all start from a *validly signed* token,
i.e. from the decoded payload.  The claim-derivation tail of `verify_jwt`
(everything after `jwt.decode` succeeds) is embedded here. -/

/-- `JWTClaims` dataclass. -/
structure JWTClaims where
  subject : String
  node_id : String
  role : String
  permissions : List String
  classification_level : String
  raw_token : String
deriving DecidableEq, Repr

/-- The decoded payload of a validly signed token: the optional claims
`verify_jwt` reads with `payload.get` (`sub` is required by
`jwt.decode(..., require_sub=True)`). -/
structure TokenPayload where
  sub : String
  node_id : Option String := none
  role : Option String := none
  permissions : Option (List String) := none
  classification_level : Option String := none
deriving DecidableEq, Repr

/-- `ROLE_PERMISSIONS.get(role, [])`: the role → permission dict of
`auth.py` with its empty-list default for unknown roles. -/
def ROLE_PERMISSIONS (role : String) : List String :=
  if role = "operator" then ["message:send", "message:read", "node:status"]
  else if role = "supervisor" then
    ["message:send", "message:read", "message:delete", "node:status", "audit:read"]
  else if role = "admin" then
    ["message:send", "message:read", "message:delete", "node:status", "node:manage",
     "config:write", "audit:read", "audit:export"]
  else if role = "service" then ["message:send", "message:read", "node:status", "internal:call"]
  else []

/-- Modelled from the spec (§6 role → permission table), for comparison
with the source's `ROLE_PERMISSIONS`: operator = {message:send,
message:read, node:status}; supervisor = operator ∪ {message:delete,
audit:read}; admin = supervisor ∪ {node:manage, config:write,
audit:export}; service = {message:send, message:read, node:status,
internal:call}. -/
def specRolePermissions (role : String) : List String :=
  if role = "operator" then ["message:send", "message:read", "node:status"]
  else if role = "supervisor" then
    ["message:send", "message:read", "node:status"] ++ ["message:delete", "audit:read"]
  else if role = "admin" then
    ["message:send", "message:read", "node:status"] ++ ["message:delete", "audit:read"]
      ++ ["node:manage", "config:write", "audit:export"]
  else if role = "service" then
    ["message:send", "message:read", "node:status", "internal:call"]
  else []

/-- The four roles of the closed enumeration. -/
def knownRoles : List String := ["operator", "supervisor", "admin", "service"]

/-- The claim-extraction tail of `verify_jwt`: defaults `node_id` to
`sub`, `role` to `"operator"`, `classification_level` to
`"UNCLASSIFIED"`; derives `permissions` from the role via
`ROLE_PERMISSIONS.get(role, [])` and lets an explicit `permissions`
claim override that derivation. -/
def verify_jwt_claims (payload : TokenPayload) (token : String) : JWTClaims :=
  let role := payload.role.getD "operator"
  let rolePermissions := ROLE_PERMISSIONS role
  { subject := payload.sub
    node_id := payload.node_id.getD payload.sub
    role := role
    permissions :=
      match payload.permissions with
      | some ps => ps
      | none => rolePermissions
    classification_level := payload.classification_level.getD "UNCLASSIFIED"
    raw_token := token }

/-- An HTTP error raised by the auth layer (`HTTPException` with the
`{error: {code, message}}` detail shape). -/
structure AuthError where
  status_code : Nat
  code : String
deriving DecidableEq, Repr

/-- `permission_checker`, the dependency produced by
`require_permission(permission)`: 403 FORBIDDEN unless `permission` is in
the caller's permission list. -/
def permission_checker (permission : String) (claims : JWTClaims) : Except AuthError JWTClaims :=
  if permission ∈ claims.permissions then .ok claims
  else .error { status_code := 403, code := "FORBIDDEN" }

/-- The `classification_hierarchy.get(·, 0)` lookup used by
`require_classification` in `auth.py`. -/
def classification_hierarchy (level : String) : Nat :=
  if level = "UNCLASSIFIED" then 0
  else if level = "CONFIDENTIAL" then 1
  else if level = "SECRET" then 2
  else if level = "TOP_SECRET" then 3
  else 0

/-- `classification_checker`, produced by `require_classification(level)`:
403 FORBIDDEN when the caller's `classification_level` ranks strictly
below the fixed `level` the dependency was built with.  (Defined for
completeness: no endpoint in `gateway-core/src/main.py` uses it.) -/
def classification_checker (level : String) (claims : JWTClaims) : Except AuthError JWTClaims :=
  if classification_hierarchy claims.classification_level < classification_hierarchy level then
    .error { status_code := 403, code := "FORBIDDEN" }
  else .ok claims

/-! ## Gateway message pipeline (`message_handler.py` and `main.py`)

Each outbound HTTP call of `MessageHandler` is a suspension whose outcome
is a parameter: one constructor per outcome the source distinguishes. -/

/-- Outcome of the POST to the crypto service seen by `_encrypt_content`:
either a response (status code plus the optional `ciphertext` field of the
JSON body) or an `httpx.RequestError`. -/
inductive CryptoCallResult where
  | response (status_code : Nat) (ciphertext : Option String)
  | transportError
deriving DecidableEq, Repr

/-- Outcome of the POST to the store-forward service seen by
`_queue_message`. -/
inductive QueueCallResult where
  | response (status_code : Nat)
  | transportError
deriving DecidableEq, Repr

/-- The collaborator outcomes and clock for one `process_message` run.
`connected_nodes` is the handler's node registry (hard-coded to
`{"NODE-ALPHA", "NODE-BRAVO"}` in `MessageHandler.__init__`); `now` is the
UTC clock in epoch milliseconds at the estimated-delivery computation. -/
structure PipelineEnv where
  crypto : CryptoCallResult
  queue : QueueCallResult
  connected_nodes : List String := ["NODE-ALPHA", "NODE-BRAVO"]
  audit_reachable : Bool := true
  now : Nat
deriving DecidableEq, Repr

/-- `MessageHandler._encrypt_content`: on a 200 response return
`data.get("ciphertext", content)`; on any other status code return
`content` unchanged; on `httpx.RequestError` return `content` unchanged.
No marker of any kind is attached in the two fallback branches. -/
def encrypt_content (r : CryptoCallResult) (content : String) : String :=
  match r with
  | .response status body =>
      if status = 200 then (body.getD content) else content
  | .transportError => content

/-- The audit event posted by `MessageHandler._log_audit_event` (the JSON
body of the POST to `/api/v1/audit/events`). -/
structure PostedAuditEvent where
  event_type : String
  control_family : String
  actor_node_id : String
  actor_role : String
  operation : String
  resource : String
  outcome : String
deriving DecidableEq, Repr

/-- `MessageHandler._log_audit_event`: posts exactly one event, always
with `event_type` as given, `control_family="AU"`,
`action = {operation: "SEND_MESSAGE", resource: "message:{id}",
outcome: "SUCCESS"}` — the outcome literal is hard-coded.  On an
`httpx.RequestError` the failure is swallowed and nothing is recorded. -/
def log_audit_event (env : PipelineEnv) (message_id event_type sender : String) :
    List PostedAuditEvent :=
  if env.audit_reachable then
    [{ event_type := event_type
       control_family := "AU"
       actor_node_id := sender
       actor_role := "operator"
       operation := "SEND_MESSAGE"
       resource := "message:" ++ message_id
       outcome := "SUCCESS" }]
  else []

/-- `MessageHandler._queue_message`: `"STORED"` on a 200/201 response,
`"QUEUED"` on any other status code, `"QUEUED"` on `httpx.RequestError`. -/
def queue_message (r : QueueCallResult) : String :=
  match r with
  | .response status => if status = 200 ∨ status = 201 then "STORED" else "QUEUED"
  | .transportError => "QUEUED"

/-- Result of `MessageHandler.process_message` together with the
observable side effects the claims mention. -/
structure ProcessResult where
  status : String
  estimated_delivery : Option Nat
  outbound_content : String
  audit_events : List PostedAuditEvent
deriving DecidableEq, Repr

/-- `MessageHandler.process_message`: encrypt (step 1), audit (step 2),
route (step 3: direct delivery returns `"TRANSMITTED"` when the recipient
is in `connected_nodes`, otherwise `_queue_message`), then compute
`estimated_delivery = now + max_latency_ms` — but only when the status is
`"QUEUED"` or `"TRANSMITTED"`; the source's condition does not include
`"STORED"`. -/
def process_message (env : PipelineEnv) (message_id : String)
    (precedence : MessagePrecedence) (sender recipient content : String) : ProcessResult :=
  let encrypted_content := encrypt_content env.crypto content
  let audit_events := log_audit_event env message_id "MESSAGE_SENT" sender
  let status :=
    if recipient ∈ env.connected_nodes then "TRANSMITTED"
    else queue_message env.queue
  let estimated_delivery :=
    if status = "QUEUED" ∨ status = "TRANSMITTED" then
      some (env.now + precedence.max_latency_ms)
    else none
  { status := status
    estimated_delivery := estimated_delivery
    outbound_content := encrypted_content
    audit_events := audit_events }

/-- The request body of `POST /api/v1/messages` (`MessageRequest` pydantic
model in `gateway-core/src/main.py`). -/
structure MessageRequest where
  precedence : MessagePrecedence
  classification : String
  sender : String
  recipient : String
  content : String
  ttl : Nat := 3600
deriving DecidableEq, Repr

/-- The pydantic field constraints of `MessageRequest`
(`precedence` is already the enum; its regex is absorbed by the type). -/
def MessageRequest.valid (r : MessageRequest) : Bool :=
  (r.classification ∈ ["UNCLASSIFIED", "CONFIDENTIAL", "SECRET", "TOP_SECRET"])
    && 1 ≤ r.sender.length && r.sender.length ≤ 64
    && 1 ≤ r.recipient.length && r.recipient.length ≤ 64
    && 1 ≤ r.content.length && r.content.length ≤ 65536
    && 60 ≤ r.ttl && r.ttl ≤ 86400

/-- Outcome of the `send_message` endpoint: a FastAPI validation error
(422, before the handler runs), an auth error from the dependency chain,
or a 201 response built from the `process_message` result. -/
inductive SendOutcome where
  | validationError
  | authError (e : AuthError)
  | created (result : ProcessResult)
deriving DecidableEq, Repr

/-- The `send_message` endpoint of `gateway-core/src/main.py`: pydantic
body validation, then the `require_permission("message:send")` dependency,
then the handler body, which calls `process_message` and answers 201.  The
handler never reads `claims.classification_level`: the only authorization
applied to a send is the `message:send` permission check. -/
def send_message (env : PipelineEnv) (message_id : String) (claims : JWTClaims)
    (request : MessageRequest) : SendOutcome :=
  if ¬request.valid then .validationError
  else
    match permission_checker "message:send" claims with
    | .error e => .authError e
    | .ok claims =>
        .created (process_message env message_id request.precedence
          request.sender request.recipient request.content)

/-! ## Base64 (Python `base64.b64encode` / `b64decode`)

Standard base64 with the RFC 4648 alphabet and `=` padding, over byte
lists (`Nat`s below 256).  Implemented directly; the round-trip
`b64decode (b64encode l) = l` is proved below and used by the crypto
round-trip claim. -/

/-- The base64 alphabet. -/
def b64Alphabet : List Char :=
  "ABCDEFGHIJKLMNOPQRSTUVWXYZabcdefghijklmnopqrstuvwxyz0123456789+/".toList

/-- Character of a sextet. -/
def b64chr (n : Nat) : Char := b64Alphabet.getD n 'A'

/-- Sextet of a character (inverse alphabet lookup). -/
def b64val (c : Char) : Nat := (b64Alphabet.indexOf c)

/-- `base64.b64encode` on a byte list: groups of three bytes become four
sextet characters; a trailing group of one or two bytes is padded with
`=`. -/
def b64encode : List Nat → List Char
  | [] => []
  | [a] => [b64chr (a / 4), b64chr (a % 4 * 16), '=', '=']
  | [a, b] => [b64chr (a / 4), b64chr (a % 4 * 16 + b / 16), b64chr (b % 16 * 4), '=']
  | a :: b :: c :: rest =>
      b64chr (a / 4) :: b64chr (a % 4 * 16 + b / 16) :: b64chr (b % 16 * 4 + c / 64)
        :: b64chr (c % 64) :: b64encode rest

/-- `base64.b64decode` on well-formed input: four characters yield three
bytes, except that `=` padding in the third or fourth position ends the
input with one or two bytes. -/
def b64decode : List Char → List Nat
  | c1 :: c2 :: c3 :: c4 :: rest =>
      if c3 = '=' then [b64val c1 * 4 + b64val c2 / 16]
      else if c4 = '=' then
        [b64val c1 * 4 + b64val c2 / 16, b64val c2 % 16 * 16 + b64val c3 / 4]
      else
        (b64val c1 * 4 + b64val c2 / 16) :: (b64val c2 % 16 * 16 + b64val c3 / 4)
          :: (b64val c3 % 4 * 64 + b64val c4) :: b64decode rest
  | _ => []

/-! ## Crypto engine (`crypto-service/src/crypto_engine.py`)

The AES-256-GCM primitive (`AESGCM` from the `cryptography` library) and
the PBKDF2 key derivation are external collaborators: they are modelled as
parameters with the library's documented contract.  `AESGCM.encrypt`
returns the ciphertext with the 16-byte tag appended; `AESGCM.decrypt`
inverts it for the same key and nonce.  `_derive_key` is any function of
the salt (the master key is fixed inside the engine), which captures
exactly what the engine relies on: the same salt re-derives the same
key.  Plaintexts are UTF-8 byte lists (`plaintext.encode("utf-8")` /
`.decode("utf-8")` at the engine boundary are mutually inverse). -/

/-- Contract of the `AESGCM` collaborator. -/
structure AEAD where
  encrypt : List Nat → List Nat → List Nat → List Nat
  decrypt : List Nat → List Nat → List Nat → Option (List Nat)
  /-- GCM appends the 16-byte tag to the ciphertext. -/
  encrypt_length : ∀ key nonce pt, (encrypt key nonce pt).length = pt.length + 16
  /-- Decryption with the same key and nonce authenticates and inverts. -/
  decrypt_encrypt : ∀ key nonce pt, decrypt key nonce (encrypt key nonce pt) = some pt
  /-- The ciphertext-with-tag is a byte string. -/
  encrypt_bytes : ∀ key nonce pt, (∀ x ∈ pt, x < 256) → ∀ x ∈ encrypt key nonce pt, x < 256

/-- Cryptographic constants of `crypto_engine.py`. -/
def SALT_SIZE : Nat := 16

/-- The dict returned by `CryptoEngine.encrypt` (three base64 strings). -/
structure EncryptOutput where
  ciphertext : List Char
  nonce : List Char
  tag : List Char
deriving DecidableEq, Repr

/-- `CryptoEngine.encrypt`: with the sampled `salt` and `nonce` as
parameters (the source draws them from `os.urandom`), derive the key from
the salt, run AES-GCM, split the trailing 16-byte tag off the ciphertext
(`ciphertext_with_tag[:-16]` / `[-16:]`), prepend the salt to the
ciphertext and base64 the three outputs. -/
def CryptoEngine.encrypt (aead : AEAD) (derive_key : List Nat → List Nat)
    (salt nonce plaintext : List Nat) : EncryptOutput :=
  let key := derive_key salt
  let ciphertext_with_tag := aead.encrypt key nonce plaintext
  let ciphertext := ciphertext_with_tag.take (ciphertext_with_tag.length - 16)
  let tag := ciphertext_with_tag.drop (ciphertext_with_tag.length - 16)
  let ciphertext_with_salt := salt ++ ciphertext
  { ciphertext := b64encode ciphertext_with_salt
    nonce := b64encode nonce
    tag := b64encode tag }

/-- `CryptoEngine.decrypt`: base64-decode the three inputs, strip the
16-byte salt from the front of the decoded ciphertext
(`ciphertext_with_salt[:SALT_SIZE]` / `[SALT_SIZE:]`), re-derive the key
from that salt, re-append the tag and run AES-GCM decryption.  `none`
models the `ValueError("Message authentication failed")` raised on a GCM
authentication error. -/
def CryptoEngine.decrypt (aead : AEAD) (derive_key : List Nat → List Nat)
    (ciphertext nonce tag : List Char) : Option (List Nat) :=
  let ciphertext_with_salt := b64decode ciphertext
  let nonce_bytes := b64decode nonce
  let tag_bytes := b64decode tag
  let salt := ciphertext_with_salt.take SALT_SIZE
  let ciphertext_bytes := ciphertext_with_salt.drop SALT_SIZE
  let key := derive_key salt
  let ciphertext_with_tag := ciphertext_bytes ++ tag_bytes
  aead.decrypt key nonce_bytes ciphertext_with_tag

/-- A toy AEAD instance satisfying the collaborator contract, used by the
round-trip witness. -/
def toyAEAD : AEAD where
  encrypt := fun _ _ pt => pt ++ List.replicate 16 0
  decrypt := fun _ _ ct => if ct.length < 16 then none else some (ct.take (ct.length - 16))
  encrypt_length := by intro k n pt; simp
  decrypt_encrypt := by
    intro k n pt
    simp only
    rw [if_neg (by simp)]
    have hlen : (pt ++ List.replicate 16 0).length - 16 = pt.length := by simp
    rw [hlen, List.take_left]
  encrypt_bytes := by
    intro k n pt h x hx
    rcases List.mem_append.mp hx with h' | h'
    · exact h x h'
    · have := List.eq_of_mem_replicate h'
      omega

/-! ## Audit logger (`audit-service/src/audit_logger.py`)

`AuditEvent._generate_hash` serializes the seven hashed fields with
`json.dumps(event_data, sort_keys=True)` and digests the result with
`hashlib.sha256`.  The digest is an external collaborator, modelled as a
parameter (the claims about it use only that it is deterministic and
collision-free, i.e. injective).  The serialization is embedded
concretely: JSON object syntax with the keys in sorted order at every
nesting level and `json.dumps`'s default `", "` / `": "` separators,
over the character range this system emits (`json.dumps` additionally
escapes control and non-ASCII characters; its escaping of `"` and `\`
is the part embedded here).  Python strings are `List Char`; a Python
dict is represented by its canonical key-sorted association list, which
is what `sort_keys=True` serializes. -/

/-- The opening brace character of JSON object syntax. -/
def lbrace : Char := Char.ofNat 123

/-- The closing brace character of JSON object syntax. -/
def rbrace : Char := Char.ofNat 125

/-- Shorthand for literal serializer fragments. -/
def lit (s : String) : List Char := s.toList

/-- `json.dumps` escaping of one character (for the character range this
system emits: `"` and `\` are backslash-escaped, everything else passes
through). -/
def escChar (c : Char) : List Char :=
  if c = '"' ∨ c = '\\' then ['\\', c] else [c]

/-- `json.dumps` escaping of a string body. -/
def jesc (s : List Char) : List Char := s.flatMap escChar

/-- A JSON string literal: quote, escaped body, quote. -/
def jstr (s : List Char) : List Char := '"' :: jesc s ++ ['"']

/-- JSON `null` (how `json.dumps` renders Python `None`). -/
def jnull : List Char := ['n', 'u', 'l', 'l']

/-- An optional string field: `null` for `None`, a JSON string
otherwise. -/
def jopt : Option (List Char) → List Char
  | none => jnull
  | some s => jstr s

/-- One `"key": "value"` entry of a JSON object. -/
def jentry (e : List Char × List Char) : List Char :=
  jstr e.1 ++ ':' :: ' ' :: jstr e.2

/-- The entries of a JSON object after the first, each preceded by the
`", "` separator (the `", ".join` of `json.dumps`). -/
def jentriesRest (l : List (List Char × List Char)) : List Char :=
  l.flatMap (fun e => ',' :: ' ' :: jentry e)

/-- The comma-separated `"key": "value"` entries of a JSON object, in the
order given (callers pass the canonical key-sorted list, which is the
order `sort_keys=True` produces). -/
def jentries : List (List Char × List Char) → List Char
  | [] => []
  | e :: rest => jentry e ++ jentriesRest rest

/-- A JSON object from an association list. -/
def jdict (l : List (List Char × List Char)) : List Char :=
  lbrace :: jentries l ++ [rbrace]

/-- `AuditActor` dataclass (`node_id`, `role`, optional `ip_address` and
`session_id`). -/
structure AuditActorData where
  node_id : List Char
  role : List Char
  ip_address : Option (List Char) := none
  session_id : Option (List Char) := none
deriving DecidableEq, Repr

/-- `AuditAction` dataclass (`operation`, `resource`, `outcome`, optional
`reason`). -/
structure AuditActionData where
  operation : List Char
  resource : List Char
  outcome : List Char
  reason : Option (List Char) := none
deriving DecidableEq, Repr

/-- The seven hashed fields of an `AuditEvent` — exactly the `event_data`
dict built by `_generate_hash`; the `hash` field itself is not part of
it. -/
structure EventData where
  event_id : List Char
  timestamp : List Char
  event_type : List Char
  control_family : List Char
  actor : AuditActorData
  action : AuditActionData
  context : List (List Char × List Char)
deriving DecidableEq, Repr

/-- `asdict(self.actor)` serialized with sorted keys:
`ip_address < node_id < role < session_id`. -/
def serializeActor (a : AuditActorData) : List Char :=
  lbrace :: (lit "\"ip_address\": " ++ (jopt a.ip_address ++ (lit ", \"node_id\": "
    ++ (jstr a.node_id ++ (lit ", \"role\": " ++ (jstr a.role ++ (lit ", \"session_id\": "
    ++ (jopt a.session_id ++ [rbrace]))))))))

/-- `asdict(self.action)` serialized with sorted keys:
`operation < outcome < reason < resource`. -/
def serializeAction (a : AuditActionData) : List Char :=
  lbrace :: (lit "\"operation\": " ++ (jstr a.operation ++ (lit ", \"outcome\": "
    ++ (jstr a.outcome ++ (lit ", \"reason\": " ++ (jopt a.reason ++ (lit ", \"resource\": "
    ++ (jstr a.resource ++ [rbrace]))))))))

/-- `json.dumps(event_data, sort_keys=True)`: the seven fields under their
sorted key order `action < actor < context < control_family < event_id <
event_type < timestamp`. -/
def serializeEventData (e : EventData) : List Char :=
  lbrace :: (lit "\"action\": " ++ (serializeAction e.action ++ (lit ", \"actor\": "
    ++ (serializeActor e.actor ++ (lit ", \"context\": " ++ (jdict e.context
    ++ (lit ", \"control_family\": " ++ (jstr e.control_family ++ (lit ", \"event_id\": "
    ++ (jstr e.event_id ++ (lit ", \"event_type\": " ++ (jstr e.event_type
    ++ (lit ", \"timestamp\": " ++ (jstr e.timestamp ++ [rbrace]))))))))))))))

/-- `AuditEvent._generate_hash`: the digest of the canonical
serialization; the digest (`hashlib.sha256(...).hexdigest()`) is the
abstract collaborator `digest`. -/
def generate_hash (digest : List Char → List Char) (e : EventData) : List Char :=
  digest (serializeEventData e)

/-- The `AuditEvent` dataclass: the seven hashed fields plus the
`hash: Optional[str]` field. -/
structure AuditEvent where
  fields : EventData
  hash : Option (List Char)
deriving DecidableEq, Repr

/-- `AuditEvent.__post_init__` as reached through `AuditLogger.log_event`
(which constructs the event without a hash): the stored hash is
`_generate_hash` of the seven fields. -/
def AuditLogger.log_event (digest : List Char → List Char) (e : EventData) : AuditEvent :=
  { fields := e, hash := some (generate_hash digest e) }

/-- `AuditLogger.verify_integrity`: recompute `_generate_hash` over the
event's current fields (the `hash` attribute is nulled during the
recomputation and restored, and is not an input of `_generate_hash`) and
compare it with the stored hash.  A `None` stored hash compares unequal
to any computed string. -/
def AuditLogger.verify_integrity (digest : List Char → List Char) (ev : AuditEvent) : Bool :=
  match ev.hash with
  | some h => h = generate_hash digest ev.fields
  | none => false

/-- A Python dict in canonical form: its association list is strictly
sorted by key, which is the unique representation `sort_keys=True`
serializes. -/
def ContextCanonical (l : List (List Char × List Char)) : Prop :=
  l.Chain' (fun a b => String.mk a.1 < String.mk b.1)

def sampleEventData : EventData :=
  { event_id := lit "evt-1"
    timestamp := lit "2026-01-01T00:00:00+00:00"
    event_type := lit "MESSAGE_SENT"
    control_family := lit "AU"
    actor := { node_id := lit "NODE-ALPHA", role := lit "operator" }
    action := { operation := lit "SEND_MESSAGE", resource := lit "message:1",
                outcome := lit "SUCCESS" }
    context := [] }

/-! ## Concrete test vectors used by counterexamples and witnesses -/

/-- A pipeline environment in which every collaborator call succeeds. -/
def envOk : PipelineEnv :=
  { crypto := .response 200 (some "CIPHERTEXT"), queue := .response 201, now := 5000 }

/-- A pipeline environment in which the crypto service is unreachable. -/
def envCryptoDown : PipelineEnv :=
  { crypto := .transportError, queue := .response 201, now := 5000 }

/-- An operator token's claims: `message:send` held, ceiling
UNCLASSIFIED. -/
def operatorClaims : JWTClaims :=
  { subject := "alice", node_id := "NODE-ALPHA", role := "operator"
    permissions := ["message:send", "message:read", "node:status"]
    classification_level := "UNCLASSIFIED", raw_token := "tok" }

/-- A TOP_SECRET send request from that operator. -/
def topSecretRequest : MessageRequest :=
  { precedence := .ROUTINE, classification := "TOP_SECRET", sender := "NODE-ALPHA"
    recipient := "NODE-BRAVO", content := "hello", ttl := 3600 }

/-- A queued message whose TTL has already elapsed at time 100. -/
def expiredMessage : QueuedMessage :=
  { message_id := "m-exp", recipient := "NODE-ZULU", encrypted_content := "x"
    precedence := .ROUTINE, created_at := 0, expires_at := 50 }

/-- Distinct FLASH and ROUTINE entries for the drain-worker
counterexample. -/
def flashMsg1 : QueuedMessage :=
  { message_id := "m1", recipient := "NODE-ZULU", encrypted_content := "x"
    precedence := .FLASH, created_at := 0, expires_at := 1000 }

def flashMsg2 : QueuedMessage :=
  { message_id := "m2", recipient := "NODE-ZULU", encrypted_content := "x"
    precedence := .FLASH, created_at := 1, expires_at := 1000 }

def routineMsg : QueuedMessage :=
  { message_id := "m3", recipient := "NODE-ZULU", encrypted_content := "x"
    precedence := .ROUTINE, created_at := 0, expires_at := 1000 }

/-! ## Theorems -/

theorem b64val_b64chr : ∀ n, n < 64 → b64val (b64chr n) = n := by decide

theorem b64chr_ne_pad : ∀ n, n < 64 → b64chr n ≠ '=' := by decide

/-- Round-trip of the base64 codec on byte lists. -/
theorem b64decode_b64encode : ∀ (l : List Nat), (∀ x ∈ l, x < 256) →
    b64decode (b64encode l) = l
  | [], _ => rfl
  | [a], h => by
      have ha : a < 256 := h a (by simp)
      simp only [b64encode, b64decode]
      rw [b64val_b64chr _ (by omega), b64val_b64chr _ (by omega)]
      simp
      omega
  | [a, b], h => by
      have ha : a < 256 := h a (by simp)
      have hb : b < 256 := h b (by simp)
      simp only [b64encode, b64decode]
      rw [if_neg (b64chr_ne_pad _ (by omega))]
      rw [b64val_b64chr _ (by omega), b64val_b64chr _ (by omega), b64val_b64chr _ (by omega)]
      simp
      constructor
      · omega
      · rw [show (a % 4 * 16 + b / 16) % 16 = b / 16 by omega]; omega
  | a :: b :: c :: rest, h => by
      have ha : a < 256 := h a (by simp)
      have hb : b < 256 := h b (by simp)
      have hc : c < 256 := h c (by simp)
      have ih := b64decode_b64encode rest (fun x hx => h x (by simp [hx]))
      simp only [b64encode, b64decode]
      rw [if_neg (b64chr_ne_pad _ (by omega)), if_neg (b64chr_ne_pad _ (by omega))]
      rw [b64val_b64chr _ (by omega), b64val_b64chr _ (by omega), b64val_b64chr _ (by omega),
        b64val_b64chr _ (by omega)]
      rw [ih]
      simp
      refine ⟨by omega, ?_, ?_⟩
      · rw [show (a % 4 * 16 + b / 16) % 16 = b / 16 by omega,
            show (b % 16 * 4 + c / 64) / 4 = b % 16 by omega]; omega
      · rw [show (b % 16 * 4 + c / 64) % 4 = c / 64 by omega]; omega

/-- C1: decrypt ∘ encrypt round-trip of the crypto engine. -/
theorem c1_crypto_roundtrip (aead : AEAD) (derive_key : List Nat → List Nat)
    (salt nonce plaintext : List Nat)
    (hsalt : salt.length = 16) (hnonce : nonce.length = 12)
    (hsaltb : ∀ x ∈ salt, x < 256) (hnonceb : ∀ x ∈ nonce, x < 256)
    (hptb : ∀ x ∈ plaintext, x < 256)
    (hlen1 : 1 ≤ plaintext.length) (hlen2 : plaintext.length ≤ 65536) :
    (CryptoEngine.decrypt aead derive_key
        (CryptoEngine.encrypt aead derive_key salt nonce plaintext).ciphertext
        (CryptoEngine.encrypt aead derive_key salt nonce plaintext).nonce
        (CryptoEngine.encrypt aead derive_key salt nonce plaintext).tag = some plaintext)
      ∧ (b64decode (CryptoEngine.encrypt aead derive_key salt nonce plaintext).ciphertext).take
          SALT_SIZE = salt := by
  unfold CryptoEngine.encrypt CryptoEngine.decrypt
  simp only
  have hctb : ∀ x ∈ aead.encrypt (derive_key salt) nonce plaintext, x < 256 :=
    aead.encrypt_bytes _ _ _ hptb
  set ctt := aead.encrypt (derive_key salt) nonce plaintext with hctt
  have h1 : ∀ x ∈ salt ++ ctt.take (ctt.length - 16), x < 256 := by
    intro x hx
    rcases List.mem_append.mp hx with h' | h'
    · exact hsaltb x h'
    · exact hctb x (List.take_subset _ _ h')
  have h2 : ∀ x ∈ ctt.drop (ctt.length - 16), x < 256 := fun x hx =>
    hctb x (List.drop_subset _ _ hx)
  rw [b64decode_b64encode _ h1, b64decode_b64encode _ hnonceb, b64decode_b64encode _ h2]
  have htake : (salt ++ ctt.take (ctt.length - 16)).take SALT_SIZE = salt := by
    have : SALT_SIZE = salt.length := hsalt.symm
    rw [this, List.take_left]
  have hdrop : (salt ++ ctt.take (ctt.length - 16)).drop SALT_SIZE = ctt.take (ctt.length - 16) := by
    have : SALT_SIZE = salt.length := hsalt.symm
    rw [this, List.drop_left]
  refine ⟨?_, htake⟩
  rw [htake, hdrop, List.take_append_drop, aead.decrypt_encrypt]

theorem c1_crypto_roundtrip_witness :
    (CryptoEngine.decrypt toyAEAD id
        (CryptoEngine.encrypt toyAEAD id (List.replicate 16 0) (List.replicate 12 0)
          [104, 105]).ciphertext
        (CryptoEngine.encrypt toyAEAD id (List.replicate 16 0) (List.replicate 12 0)
          [104, 105]).nonce
        (CryptoEngine.encrypt toyAEAD id (List.replicate 16 0) (List.replicate 12 0)
          [104, 105]).tag = some [104, 105])
      ∧ (b64decode (CryptoEngine.encrypt toyAEAD id (List.replicate 16 0) (List.replicate 12 0)
          [104, 105]).ciphertext).take SALT_SIZE = List.replicate 16 0 :=
  c1_crypto_roundtrip toyAEAD id _ _ _ (by decide) (by decide) (by decide) (by decide)
    (by decide) (by decide) (by decide)

theorem escChar_split {a b : Char} {u v : List Char}
    (h : escChar a ++ u = escChar b ++ v) : a = b ∧ u = v := by
  unfold escChar at h
  by_cases ha : a = '"' ∨ a = '\\' <;> by_cases hb : b = '"' ∨ b = '\\'
  · rw [if_pos ha, if_pos hb] at h
    simp only [List.cons_append, List.nil_append, List.cons.injEq] at h
    exact ⟨h.2.1, h.2.2⟩
  · rw [if_pos ha, if_neg hb] at h
    simp only [List.cons_append, List.nil_append, List.cons.injEq] at h
    exact absurd h.1.symm (fun hb' => hb (Or.inr hb'))
  · rw [if_neg ha, if_pos hb] at h
    simp only [List.cons_append, List.nil_append, List.cons.injEq] at h
    exact absurd h.1 (fun ha' => ha (Or.inr ha'))
  · rw [if_neg ha, if_neg hb] at h
    simp only [List.cons_append, List.nil_append, List.cons.injEq] at h
    exact ⟨h.1, h.2⟩

theorem escChar_head_ne_quote (a : Char) {r s : List Char} :
    escChar a ++ r ≠ '"' :: s := by
  unfold escChar
  by_cases ha : a = '"' ∨ a = '\\'
  · rw [if_pos ha]
    intro h
    simp only [List.cons_append, List.cons.injEq] at h
    exact absurd h.1 (by decide)
  · rw [if_neg ha]
    intro h
    simp only [List.cons_append, List.nil_append, List.cons.injEq] at h
    exact ha (Or.inl h.1)

theorem jesc_split : ∀ {s t u v : List Char},
    jesc s ++ ('"' :: u) = jesc t ++ ('"' :: v) → s = t ∧ u = v := by
  intro s
  induction s with
  | nil =>
    intro t u v h
    cases t with
    | nil =>
      simp only [jesc, List.flatMap_nil, List.nil_append, List.cons.injEq] at h
      exact ⟨rfl, h.2⟩
    | cons b t' =>
      simp only [jesc, List.flatMap_nil, List.flatMap_cons, List.nil_append,
        List.append_assoc] at h
      exact absurd h.symm (escChar_head_ne_quote b)
  | cons a s' ih =>
    intro t u v h
    cases t with
    | nil =>
      simp only [jesc, List.flatMap_nil, List.flatMap_cons, List.nil_append,
        List.append_assoc] at h
      exact absurd h (escChar_head_ne_quote a)
    | cons b t' =>
      simp only [jesc, List.flatMap_cons, List.append_assoc] at h
      obtain ⟨hab, htail⟩ := escChar_split h
      obtain ⟨hst, huv⟩ := ih htail
      exact ⟨by rw [hab, hst], huv⟩

theorem jstr_split {s t u v : List Char}
    (h : jstr s ++ u = jstr t ++ v) : s = t ∧ u = v := by
  simp only [jstr, List.cons_append, List.append_assoc, List.cons.injEq,
    List.singleton_append] at h
  exact jesc_split h.2

theorem jopt_split {x y : Option (List Char)} {u v : List Char}
    (h : jopt x ++ u = jopt y ++ v) : x = y ∧ u = v := by
  cases x with
  | none =>
    cases y with
    | none =>
      simp only [jopt, jnull, List.cons_append, List.nil_append, List.cons.injEq] at h
      exact ⟨rfl, h.2.2.2.2⟩
    | some t =>
      simp only [jopt, jnull, jstr, List.cons_append, List.cons.injEq] at h
      exact absurd h.1 (by decide)
  | some s =>
    cases y with
    | none =>
      simp only [jopt, jnull, jstr, List.cons_append, List.cons.injEq] at h
      exact absurd h.1 (by decide)
    | some t =>
      obtain ⟨hst, huv⟩ := jstr_split h
      exact ⟨by rw [hst], huv⟩

theorem jentry_split {e f : List Char × List Char} {u v : List Char}
    (h : jentry e ++ u = jentry f ++ v) : e = f ∧ u = v := by
  simp only [jentry, List.append_assoc, List.cons_append] at h
  obtain ⟨hk, h⟩ := jstr_split h
  simp only [List.cons.injEq] at h
  obtain ⟨hv, huv⟩ := jstr_split h.2.2
  exact ⟨Prod.ext hk hv, huv⟩

theorem jentriesRest_split : ∀ {l m : List (List Char × List Char)} {u v : List Char},
    jentriesRest l ++ (rbrace :: u) = jentriesRest m ++ (rbrace :: v) → l = m ∧ u = v := by
  intro l
  induction l with
  | nil =>
    intro m u v h
    cases m with
    | nil =>
      simp only [jentriesRest, List.flatMap_nil, List.nil_append, List.cons.injEq] at h
      exact ⟨rfl, h.2⟩
    | cons f m' =>
      simp only [jentriesRest, List.flatMap_nil, List.flatMap_cons, List.nil_append,
        List.cons_append, List.cons.injEq] at h
      exact absurd h.1 (by decide)
  | cons e l' ih =>
    intro m u v h
    cases m with
    | nil =>
      simp only [jentriesRest, List.flatMap_nil, List.flatMap_cons, List.nil_append,
        List.cons_append, List.cons.injEq] at h
      exact absurd h.1 (by decide)
    | cons f m' =>
      simp only [jentriesRest, List.flatMap_cons, List.cons_append, List.append_assoc,
        List.cons.injEq] at h
      obtain ⟨hef, h⟩ := jentry_split h.2.2
      have := ih (u := u) (v := v) (m := m') (by simpa [jentriesRest] using h)
      exact ⟨by rw [hef, this.1], this.2⟩

theorem jentries_split : ∀ {l m : List (List Char × List Char)} {u v : List Char},
    jentries l ++ (rbrace :: u) = jentries m ++ (rbrace :: v) → l = m ∧ u = v := by
  intro l m u v h
  cases l with
  | nil =>
    cases m with
    | nil =>
      simp only [jentries, List.nil_append, List.cons.injEq] at h
      exact ⟨rfl, h.2⟩
    | cons f m' =>
      simp only [jentries, jentry, List.nil_append, List.cons_append, jstr,
        List.append_assoc, List.cons.injEq] at h
      exact absurd h.1 (by decide)
  | cons e l' =>
    cases m with
    | nil =>
      simp only [jentries, jentry, List.nil_append, List.cons_append, jstr,
        List.append_assoc, List.cons.injEq] at h
      exact absurd h.1 (by decide)
    | cons f m' =>
      simp only [jentries, List.append_assoc] at h
      obtain ⟨hef, h⟩ := jentry_split h
      obtain ⟨hlm, huv⟩ := jentriesRest_split h
      exact ⟨by rw [hef, hlm], huv⟩

theorem jdict_split {l m : List (List Char × List Char)} {u v : List Char}
    (h : jdict l ++ u = jdict m ++ v) : l = m ∧ u = v := by
  simp only [jdict, List.cons_append, List.append_assoc, List.cons.injEq,
    List.singleton_append] at h
  exact jentries_split h.2

theorem serializeActor_split {a b : AuditActorData} {u v : List Char}
    (h : serializeActor a ++ u = serializeActor b ++ v) : a = b ∧ u = v := by
  obtain ⟨an, ar, ai, as⟩ := a
  obtain ⟨bn, br, bi, bs⟩ := b
  simp only [serializeActor, List.cons_append, List.append_assoc, List.cons.injEq,
    List.singleton_append] at h
  replace h := (List.append_right_inj _).mp h.2
  obtain ⟨h1, h⟩ := jopt_split h
  replace h := (List.append_right_inj _).mp h
  obtain ⟨h2, h⟩ := jstr_split h
  replace h := (List.append_right_inj _).mp h
  obtain ⟨h3, h⟩ := jstr_split h
  replace h := (List.append_right_inj _).mp h
  obtain ⟨h4, h⟩ := jopt_split h
  simp only [List.cons.injEq] at h
  exact ⟨by simp [h1, h2, h3, h4], h.2⟩

theorem serializeAction_split {a b : AuditActionData} {u v : List Char}
    (h : serializeAction a ++ u = serializeAction b ++ v) : a = b ∧ u = v := by
  obtain ⟨ao, ars, aoc, arn⟩ := a
  obtain ⟨bo, brs, boc, brn⟩ := b
  simp only [serializeAction, List.cons_append, List.append_assoc, List.cons.injEq,
    List.singleton_append] at h
  replace h := (List.append_right_inj _).mp h.2
  obtain ⟨h1, h⟩ := jstr_split h
  replace h := (List.append_right_inj _).mp h
  obtain ⟨h2, h⟩ := jstr_split h
  replace h := (List.append_right_inj _).mp h
  obtain ⟨h3, h⟩ := jopt_split h
  replace h := (List.append_right_inj _).mp h
  obtain ⟨h4, h⟩ := jstr_split h
  simp only [List.cons.injEq] at h
  exact ⟨by simp [h1, h2, h3, h4], h.2⟩

/-- The canonical serialization is injective: two distinct seven-field
records serialize differently. -/
theorem serializeEventData_injective : Function.Injective serializeEventData := by
  intro e f h
  obtain ⟨ei, ets, ety, ecf, eac, eaa, ectx⟩ := e
  obtain ⟨fi, fts, fty, fcf, fac, faa, fctx⟩ := f
  simp only [serializeEventData, List.cons_append, List.append_assoc, List.cons.injEq,
    List.singleton_append] at h
  replace h := (List.append_right_inj _).mp h.2
  obtain ⟨h1, h⟩ := serializeAction_split h
  replace h := (List.append_right_inj _).mp h
  obtain ⟨h2, h⟩ := serializeActor_split h
  replace h := (List.append_right_inj _).mp h
  obtain ⟨h3, h⟩ := jdict_split h
  replace h := (List.append_right_inj _).mp h
  obtain ⟨h4, h⟩ := jstr_split h
  replace h := (List.append_right_inj _).mp h
  obtain ⟨h5, h⟩ := jstr_split h
  replace h := (List.append_right_inj _).mp h
  obtain ⟨h6, h⟩ := jstr_split h
  replace h := (List.append_right_inj _).mp h
  obtain ⟨h7, h⟩ := jstr_split h
  simp [h1, h2, h3, h4, h5, h6, h7]

/-- C7: an unmodified logged event verifies; any mutation of the hashed
fields falsifies verification. -/
theorem c7_audit_hash_integrity (digest : List Char → List Char)
    (hdigest : Function.Injective digest) (f f' : EventData)
    (hcanon : ContextCanonical f.context) (hcanon' : ContextCanonical f'.context) :
    AuditLogger.verify_integrity digest (AuditLogger.log_event digest f) = true
      ∧ (f' ≠ f →
          AuditLogger.verify_integrity digest
            { fields := f', hash := (AuditLogger.log_event digest f).hash } = false) := by
  constructor
  · simp [AuditLogger.verify_integrity, AuditLogger.log_event]
  · intro hne
    simp only [AuditLogger.verify_integrity, AuditLogger.log_event, generate_hash,
      decide_eq_false_iff_not]
    intro heq
    exact hne (serializeEventData_injective (hdigest heq)).symm

theorem c7_audit_hash_integrity_witness :
    AuditLogger.verify_integrity id (AuditLogger.log_event id sampleEventData) = true
      ∧ ({ sampleEventData with event_id := lit "evt-2" } ≠ sampleEventData →
          AuditLogger.verify_integrity id
            { fields := { sampleEventData with event_id := lit "evt-2" },
              hash := (AuditLogger.log_event id sampleEventData).hash } = false) :=
  c7_audit_hash_integrity id (fun _ _ h => h) sampleEventData
    { sampleEventData with event_id := lit "evt-2" } (by simp [ContextCanonical, sampleEventData])
    (by simp [ContextCanonical, sampleEventData])

/-! ## C2: classification ceiling on send -/

/-- C2 counterexample: a send whose classification (TOP_SECRET) strictly
exceeds the caller's ceiling (UNCLASSIFIED) is not rejected with
FORBIDDEN — it is processed normally, because the `send_message` endpoint
checks only the `message:send` permission. -/
theorem c2_ceiling_counterexample :
    classification_hierarchy operatorClaims.classification_level
        < classification_hierarchy topSecretRequest.classification
      ∧ send_message envOk "msg-1" operatorClaims topSecretRequest
          = .created (process_message envOk "msg-1" .ROUTINE "NODE-ALPHA" "NODE-BRAVO" "hello") := by
  constructor
  · decide
  · rfl

/-- C2 (amended): the gateway send is rejected with FORBIDDEN exactly when
the caller lacks `message:send`; the message classification and the
caller's ceiling play no role in the decision. -/
theorem c2_send_forbidden_iff (env : PipelineEnv) (message_id : String)
    (claims : JWTClaims) (request : MessageRequest) (hvalid : request.valid = true) :
    (send_message env message_id claims request
        = .authError { status_code := 403, code := "FORBIDDEN" })
      ↔ "message:send" ∉ claims.permissions := by
  unfold send_message
  rw [if_neg (by simp [hvalid])]
  unfold permission_checker
  by_cases hmem : "message:send" ∈ claims.permissions
  · rw [if_pos hmem]
    simp [hmem]
  · rw [if_neg hmem]
    simp [hmem]

theorem c2_send_forbidden_iff_witness :
    topSecretRequest.valid = true
      ∧ ((send_message envOk "msg-1"
            { operatorClaims with permissions := [] } topSecretRequest
          = .authError { status_code := 403, code := "FORBIDDEN" })
        ↔ "message:send" ∉ ({ operatorClaims with permissions := [] } : JWTClaims).permissions) :=
  ⟨by decide, c2_send_forbidden_iff envOk "msg-1" _ topSecretRequest (by decide)⟩

/-! ## C3: TTL at dequeue time -/

/-- C3: the code delivers an entry whose `expires_at` (50) is below the
current time (100): `dequeue` returns it, the worker cycle delivers it,
and `expired_count_24h` stays 0 — `QueueManager` never inspects
`expires_at` on the way out, contradicting both the spec (P6) and the
class's own docstring ("TTL management and automatic expiration"). -/
theorem c3_ttl_code_bug :
    expiredMessage.expires_at ≤ 100
      ∧ QueueManager.dequeue { routine := [expiredMessage] } .ROUTINE
          = (some expiredMessage, { routine := [] })
      ∧ processQueueWorkerCycle { routine := [expiredMessage] }
          = ([(.ROUTINE, expiredMessage)], { routine := [] })
      ∧ (processQueueWorkerCycle { routine := [expiredMessage] }).2.expired_count_24h = 0 := by
  refine ⟨by decide, rfl, rfl, rfl⟩

/-! ## C4: priority-strict draining -/

/-- C4 counterexample: one cycle of the drain worker delivers the ROUTINE
entry `routineMsg` while the FLASH entry `flashMsg2` is still queued (the
worker dequeues at most one entry per class per cycle). -/
theorem c4_worker_counterexample :
    processQueueWorkerCycle { flash := [flashMsg1, flashMsg2], routine := [routineMsg] }
        = ([(.FLASH, flashMsg1), (.ROUTINE, routineMsg)], { flash := [flashMsg2] }) := by
  rfl

theorem flushClass_eq (q : List QueuedMessage) : flushClass q = q := by
  induction q with
  | nil => rfl
  | cons m rest ih => simp [flushClass, ih]

/-- C4 (amended): `flush_all` is priority-strict — its delivery trace is
the FLASH queue, then IMMEDIATE, then PRIORITY, then ROUTINE, each class
emptied before the next; the trace is monotone in `priority_value`, the
counters are (everything, 0), and the final state is empty.  (The drain
worker, by contrast, is not priority-strict: see the counterexample.) -/
theorem c4_flush_all_priority_strict (st : QueueState) :
    (QueueManager.flush_all st).1
        = st.flash.map (fun m => (.FLASH, m)) ++ st.immediate.map (fun m => (.IMMEDIATE, m))
          ++ st.priority.map (fun m => (.PRIORITY, m)) ++ st.routine.map (fun m => (.ROUTINE, m))
      ∧ (QueueManager.flush_all st).1.Pairwise
          (fun a b => a.1.priority_value ≤ b.1.priority_value)
      ∧ (QueueManager.flush_all st).2.1 = (QueueManager.flush_all st).1.length
      ∧ (QueueManager.flush_all st).2.2.1 = 0
      ∧ (QueueManager.flush_all st).2.2.2
          = { expired_count_24h := st.expired_count_24h } := by
  obtain ⟨fl, im, pr, ro, ec⟩ := st
  refine ⟨?_, ?_, rfl, rfl, rfl⟩
  · simp [QueueManager.flush_all, precedenceOrder, QueueState.get, QueueState.set,
      flushClass_eq]
  · have htag : ∀ (p : MessagePrecedence) (l : List QueuedMessage),
        (l.map (fun m => (p, m))).Pairwise
          (fun a b => a.1.priority_value ≤ b.1.priority_value) := by
      intro p l
      induction l with
      | nil => simp
      | cons m rest ih =>
        simp only [List.map_cons, List.pairwise_cons]
        exact ⟨fun b hb => by
          obtain ⟨m', _, rfl⟩ := List.mem_map.mp hb
          exact le_refl _, ih⟩
    have hcross : ∀ (p q : MessagePrecedence) (l l' : List QueuedMessage),
        p.priority_value ≤ q.priority_value →
        ∀ a ∈ l.map (fun m => (p, m)), ∀ b ∈ l'.map (fun m => (q, m)),
          a.1.priority_value ≤ b.1.priority_value := by
      intro p q l l' hpq a ha b hb
      obtain ⟨_, _, rfl⟩ := List.mem_map.mp ha
      obtain ⟨_, _, rfl⟩ := List.mem_map.mp hb
      exact hpq
    simp only [QueueManager.flush_all, precedenceOrder, QueueState.get, flushClass_eq]
    simp only [List.flatMap_cons, List.flatMap_nil, List.append_nil]
    rw [List.pairwise_append]
    refine ⟨htag _ _, ?_, ?_⟩
    · rw [List.pairwise_append]
      refine ⟨htag _ _, ?_, ?_⟩
      · rw [List.pairwise_append]
        exact ⟨htag _ _, htag _ _, hcross _ _ _ _ (by decide)⟩
      · intro a ha b hb
        rcases List.mem_append.mp hb with hb | hb
        · exact hcross _ _ _ _ (by decide) a ha b hb
        · exact hcross _ _ _ _ (by decide) a ha b hb
    · intro a ha b hb
      rcases List.mem_append.mp hb with hb | hb
      · exact hcross _ _ _ _ (by decide) a ha b hb
      rcases List.mem_append.mp hb with hb | hb
      · exact hcross _ _ _ _ (by decide) a ha b hb
      · exact hcross _ _ _ _ (by decide) a ha b hb

/-! ## C5: duplicate message ids -/

/-- C5 counterexample: enqueueing the same message id twice succeeds both
times — the second call returns a normal success result (queue position
2), and the FLASH queue then holds two in-flight entries with the same
message id.  No duplicate check and no `ALREADY_QUEUED` rejection exist
in the source. -/
theorem c5_duplicate_counterexample :
    (QueueManager.enqueue
        (QueueManager.enqueue {} "m" "NODE-ZULU" "ct" .FLASH 3600 0).1
        "m" "NODE-ZULU" "ct" .FLASH 3600 5).2
        = { queue_position := 2, expires_at := 3605 }
      ∧ ((QueueManager.enqueue
            (QueueManager.enqueue {} "m" "NODE-ZULU" "ct" .FLASH 3600 0).1
            "m" "NODE-ZULU" "ct" .FLASH 3600 5).1.flash.map
              QueuedMessage.message_id) = ["m", "m"] := by
  exact ⟨rfl, rfl⟩

/-- C5 (amended): `enqueue` performs no duplicate-id check: whatever the
queue already contains, it appends the new entry to the tail of its class
and reports position `length + 1`. -/
theorem c5_enqueue_always_appends (st : QueueState)
    (message_id recipient encrypted_content : String)
    (precedence : MessagePrecedence) (ttl now : Nat) :
    (QueueManager.enqueue st message_id recipient encrypted_content precedence ttl now).1.get
        precedence
      = st.get precedence
        ++ [{ message_id := message_id, recipient := recipient
              encrypted_content := encrypted_content, precedence := precedence
              created_at := now, expires_at := now + ttl }]
      ∧ (QueueManager.enqueue st message_id recipient encrypted_content precedence ttl now).2
        = { queue_position := (st.get precedence).length + 1, expires_at := now + ttl } := by
  unfold QueueManager.enqueue
  have hgs : ∀ (q : List QueuedMessage), (st.set precedence q).get precedence = q := by
    intro q
    cases precedence <;> rfl
  refine ⟨hgs _, ?_⟩
  simp

/-! ## C6: crypto transport failure handling -/

/-- C6 counterexample: with the crypto service unreachable,
`process_message` forwards the raw plaintext unchanged as the outbound
copy — no UNENCRYPTED marker — and the only audit event posted is the
ordinary MESSAGE_SENT event with outcome SUCCESS and operation
SEND_MESSAGE; no FAILURE/ENCRYPT audit event exists. -/
theorem c6_degrade_counterexample :
    (process_message envCryptoDown "m1" .FLASH "NODE-ALPHA" "NODE-ZULU" "hello").outbound_content
        = "hello"
      ∧ (process_message envCryptoDown "m1" .FLASH "NODE-ALPHA" "NODE-ZULU" "hello").audit_events
        = [{ event_type := "MESSAGE_SENT", control_family := "AU"
             actor_node_id := "NODE-ALPHA", actor_role := "operator"
             operation := "SEND_MESSAGE", resource := "message:m1", outcome := "SUCCESS" }]
      ∧ ((process_message envCryptoDown "m1" .FLASH "NODE-ALPHA" "NODE-ZULU"
          "hello").audit_events.all
            (fun e => !(e.outcome = "FAILURE" && e.operation = "ENCRYPT"))) = true := by
  exact ⟨rfl, rfl, rfl⟩

/-- C6 (amended): on a crypto transport error the pipeline proceeds with
the raw plaintext as the outbound copy, attaches no marker of any kind,
and every audit event it posts has outcome SUCCESS and operation
SEND_MESSAGE (the MESSAGE_SENT event); no FAILURE or ENCRYPT audit event
is produced. -/
theorem c6_degrade_amended (env : PipelineEnv) (message_id : String)
    (precedence : MessagePrecedence) (sender recipient content : String)
    (hdown : env.crypto = .transportError) :
    (process_message env message_id precedence sender recipient content).outbound_content
        = content
      ∧ ∀ e ∈ (process_message env message_id precedence sender recipient content).audit_events,
          e.outcome = "SUCCESS" ∧ e.operation = "SEND_MESSAGE" := by
  unfold process_message encrypt_content log_audit_event
  rw [hdown]
  refine ⟨rfl, ?_⟩
  by_cases haud : env.audit_reachable <;> simp [haud]

theorem c6_degrade_amended_witness :
    envCryptoDown.crypto = CryptoCallResult.transportError
      ∧ ((process_message envCryptoDown "m1" .FLASH "NODE-ALPHA" "NODE-ZULU"
            "hello").outbound_content = "hello"
        ∧ ∀ e ∈ (process_message envCryptoDown "m1" .FLASH "NODE-ALPHA" "NODE-ZULU"
            "hello").audit_events, e.outcome = "SUCCESS" ∧ e.operation = "SEND_MESSAGE") :=
  ⟨rfl, c6_degrade_amended envCryptoDown "m1" .FLASH "NODE-ALPHA" "NODE-ZULU" "hello" rfl⟩

/-! ## C8: estimated delivery -/

/-- C8 counterexample: a send accepted into the store-and-forward queue
(status STORED, recipient not connected, enqueue answered 201) carries no
`estimated_delivery` at all, where the claim requires `now +
max_latency(precedence)` for every accepted send. -/
theorem c8_estimated_delivery_counterexample :
    (process_message envOk "m1" .FLASH "NODE-ALPHA" "NODE-ZULU" "hi").status = "STORED"
      ∧ (process_message envOk "m1" .FLASH "NODE-ALPHA" "NODE-ZULU" "hi").estimated_delivery
        = none := by
  exact ⟨rfl, rfl⟩

/-- C8 (amended): the latency budget table is exactly FLASH=100,
IMMEDIATE=500, PRIORITY=2000, ROUTINE=10000 ms, and
`estimated_delivery = now + max_latency(precedence)` is attached exactly
when the resulting status is TRANSMITTED (direct delivery) or QUEUED
(enqueue failed); a send stored in the queue (status STORED) gets
`estimated_delivery = None`. -/
theorem c8_estimated_delivery_amended (env : PipelineEnv) (message_id : String)
    (precedence : MessagePrecedence) (sender recipient content : String) :
    (precedenceOrder.map MessagePrecedence.max_latency_ms = [100, 500, 2000, 10000])
      ∧ ((process_message env message_id precedence sender recipient content).status
            = "TRANSMITTED"
          ∨ (process_message env message_id precedence sender recipient content).status
            = "QUEUED" →
          (process_message env message_id precedence sender recipient content).estimated_delivery
            = some (env.now + precedence.max_latency_ms))
      ∧ ((process_message env message_id precedence sender recipient content).status = "STORED" →
          (process_message env message_id precedence sender recipient content).estimated_delivery
            = none) := by
  refine ⟨rfl, ?_, ?_⟩
  · intro hst
    unfold process_message at hst ⊢
    simp only at hst ⊢
    rcases hst with hst | hst <;> rw [if_pos (by rw [hst]; simp)]
  · intro hst
    unfold process_message at hst ⊢
    simp only at hst ⊢
    rw [if_neg (by rw [hst]; decide)]

theorem c8_estimated_delivery_amended_witness :
    ((process_message envOk "m1" .FLASH "NODE-ALPHA" "NODE-BRAVO" "hi").status = "TRANSMITTED"
        ∨ (process_message envOk "m1" .FLASH "NODE-ALPHA" "NODE-BRAVO" "hi").status = "QUEUED")
      ∧ (process_message envOk "m1" .FLASH "NODE-ALPHA" "NODE-BRAVO" "hi").estimated_delivery
        = some (envOk.now + MessagePrecedence.FLASH.max_latency_ms) :=
  ⟨Or.inl rfl,
    (c8_estimated_delivery_amended envOk "m1" .FLASH "NODE-ALPHA" "NODE-BRAVO" "hi").2.1
      (Or.inl rfl)⟩

/-! ## C9 / C10: RBAC -/

/-- The source's role → permission dict grants exactly the spec's §6
mapping, role by role. -/
theorem ROLE_PERMISSIONS_eq_spec (role : String) (hrole : role ∈ knownRoles) (p : String) :
    p ∈ ROLE_PERMISSIONS role ↔ p ∈ specRolePermissions role := by
  simp only [knownRoles, List.mem_cons, List.not_mem_nil, or_false] at hrole
  rcases hrole with h | h | h | h <;> subst h <;>
    simp [ROLE_PERMISSIONS, specRolePermissions] <;> tauto

/-- C9: RBAC minimality — for every role of the closed set and every
permission outside the spec's mapping for that role, a request gated on
that permission under a validly signed token carrying that role (and no
explicit `permissions` claim) is rejected with 403 FORBIDDEN. -/
theorem c9_rbac_minimality (role permission : String) (payload : TokenPayload) (token : String)
    (hrole : role ∈ knownRoles) (hperm : permission ∉ specRolePermissions role)
    (hpayload : payload.role = some role) (hnoperms : payload.permissions = none) :
    permission_checker permission (verify_jwt_claims payload token)
      = .error { status_code := 403, code := "FORBIDDEN" } := by
  unfold permission_checker verify_jwt_claims
  rw [hpayload, hnoperms]
  simp only [Option.getD_some]
  rw [if_neg (fun hmem => hperm ((ROLE_PERMISSIONS_eq_spec role hrole permission).mp hmem))]

theorem c9_rbac_minimality_witness :
    "operator" ∈ knownRoles
      ∧ "node:manage" ∉ specRolePermissions "operator"
      ∧ permission_checker "node:manage"
          (verify_jwt_claims { sub := "alice", role := some "operator" } "tok")
        = .error { status_code := 403, code := "FORBIDDEN" } :=
  ⟨by decide, by decide,
    c9_rbac_minimality "operator" "node:manage" { sub := "alice", role := some "operator" }
      "tok" (by decide) (by decide) rfl rfl⟩

/-- C10: permission derivation edge cases of `verify_jwt` — with no
explicit `permissions` claim, a missing `role` claim defaults to
`"operator"` and grants the operator permission set, while a role outside
the closed set yields the empty permission set, so every permission check
answers 403 FORBIDDEN. -/
theorem c10_role_defaults (payload : TokenPayload) (token : String)
    (hnoperms : payload.permissions = none) :
    (payload.role = none →
        (verify_jwt_claims payload token).permissions = ROLE_PERMISSIONS "operator")
      ∧ (∀ r, payload.role = some r → r ∉ knownRoles →
          (verify_jwt_claims payload token).permissions = []
            ∧ ∀ permission, permission_checker permission (verify_jwt_claims payload token)
                = .error { status_code := 403, code := "FORBIDDEN" }) := by
  constructor
  · intro hrole
    unfold verify_jwt_claims
    rw [hrole, hnoperms]
    rfl
  · intro r hrole hunknown
    simp only [knownRoles, List.mem_cons, List.not_mem_nil, or_false, not_or] at hunknown
    obtain ⟨h1, h2, h3, h4⟩ := hunknown
    have hperms : (verify_jwt_claims payload token).permissions = [] := by
      unfold verify_jwt_claims
      rw [hrole, hnoperms]
      simp only [Option.getD_some]
      rw [ROLE_PERMISSIONS, if_neg h1, if_neg h2, if_neg h3, if_neg h4]
    refine ⟨hperms, fun permission => ?_⟩
    unfold permission_checker
    rw [hperms]
    simp

theorem c10_role_defaults_witness :
    ((verify_jwt_claims { sub := "svc" } "tok").permissions = ROLE_PERMISSIONS "operator")
      ∧ ((verify_jwt_claims { sub := "bob", role := some "ghost" } "tok").permissions = []
        ∧ permission_checker "message:send"
            (verify_jwt_claims { sub := "bob", role := some "ghost" } "tok")
          = .error { status_code := 403, code := "FORBIDDEN" }) :=
  ⟨(c10_role_defaults { sub := "svc" } "tok" rfl).1 rfl,
    ((c10_role_defaults { sub := "bob", role := some "ghost" } "tok" rfl).2 "ghost" rfl
        (by decide)).1,
    ((c10_role_defaults { sub := "bob", role := some "ghost" } "tok" rfl).2 "ghost" rfl
        (by decide)).2 "message:send"⟩
